import Mathlib

/-!
# Verification of the decoded-imagesize metadata engine

Shallow embedding of the Go program in `main.go` (package `main` of
`decoded-imagesize`): the format-specific metadata walkers (PNG chunks,
JPEG markers, ISO-BMFF boxes for HEIF/AVIF, WebP RIFF sniffing), the
bytes-per-pixel model, and the aggregation step that computes decoded
size and the compression ratio.

Conventions of the embedding:

* A byte stream (file content) is a `List Nat`, each element one byte
  (values 0–255 in any real stream; definitions use the same arithmetic
  the Go code uses on bytes, so all comparisons are consistent).
* Go's `io.ReadFull(r, buf)` over a seekable source at absolute
  position `pos` succeeds iff `pos + n ≤ length`; modelled by
  `readFull`.  A relative seek by `k` from position `p` lands at
  `p + k` (the Go walkers only ever produce non-negative targets,
  which the definitions mirror exactly by algebraic simplification of
  `pos + 4 + (L - 2) = pos + 2 + L` for the 16-bit stored length `L`).
* Go runtime panics (`make([]byte, n)` with `n < 0`, or slicing out of
  range) are modelled by `Option`: `none` is a panic, `some` a normal
  return.  Walkers that cannot panic are total functions.
* `float64` arithmetic appears only in the compression-ratio field; it
  is modelled by `FloatVal` (an exact rational plus IEEE infinities
  and NaN), which is faithful for the only questions at issue here:
  whether a zero denominator yields an error or an infinity.
-/

/-- Byte of a stream at index `i` (streams are indexed from 0). -/
def byteAt (d : List Nat) (i : Nat) : Nat := d.getD i 0

/-- `sliceAt d start n` is the sub-list `d[start : start+n]` (shorter if the
stream ends first), the embedding of a Go slice of a byte buffer. -/
def sliceAt (d : List Nat) (start n : Nat) : List Nat := (d.drop start).take n

/-- `io.ReadFull` of `n` bytes at absolute position `pos`: all-or-nothing. -/
def readFull (d : List Nat) (pos n : Nat) : Option (List Nat) :=
  if pos + n ≤ d.length then some (sliceAt d pos n) else none

/-- `binary.BigEndian.Uint16` of the two bytes at `i`. -/
def be16at (d : List Nat) (i : Nat) : Nat :=
  256 * byteAt d i + byteAt d (i + 1)

/-- `binary.BigEndian.Uint32` of the four bytes at `i`. -/
def be32at (d : List Nat) (i : Nat) : Nat :=
  16777216 * byteAt d i + 65536 * byteAt d (i + 1) + 256 * byteAt d (i + 2) + byteAt d (i + 3)

/-- ASCII bytes of a literal, for the FourCC / chunk-type comparisons the
Go code performs with `string(buf) == "…"`. -/
def ascii (s : String) : List Nat := s.data.map Char.toNat

/-- Substring containment on byte lists, the embedding of `bytes.Contains`. -/
def containsBytes (hay needle : List Nat) : Bool := decide (needle <:+: hay)

/-- Go `type ColorModel int` with its named constants. -/
inductive GoColorModel where
  | Unknown
  | RGB
  | YCbCr
  | Grayscale
  | Indexed
deriving DecidableEq, Repr

/-- Go `type ColorSpace int` with its named constants. -/
inductive GoColorSpace where
  | Unknown
  | SRGB
  | AdobeRGB
  | BT709
  | BT2020
  | DisplayP3
deriving DecidableEq, Repr

/-- Go `type HDRType int` with its named constants. -/
inductive GoHDRType where
  | None
  | PQ
  | HLG
  | Limited
deriving DecidableEq, Repr

/-- Go `type ChromaSubsampling int` with its named constants. -/
inductive GoChroma where
  | NA
  | S444
  | S422
  | S420
  | Unknown
deriving DecidableEq, Repr

/-- Go `type CompressionType int` with its named constants. -/
inductive GoCompression where
  | Unknown
  | Lossless
  | Lossy
  | Hybrid
deriving DecidableEq, Repr

/-- IEEE-style value for the `float64` compression-ratio field: an exact
rational for the finite case, plus the infinities and NaN that Go's
`float64` division produces on a zero denominator. -/
inductive FloatVal where
  | finite (q : ℚ)
  | inf
  | neginf
  | nan
deriving DecidableEq, Repr

/-- Go `float64(a) / float64(b)` for two integers, restricted to what the
program can observe: a zero denominator gives NaN (0/0) or a signed
infinity, a non-zero denominator the exact quotient. -/
def goFloatDiv (a b : Int) : FloatVal :=
  if b = 0 then
    if a = 0 then FloatVal.nan
    else if 0 < a then FloatVal.inf
    else FloatVal.neginf
  else FloatVal.finite ((a : ℚ) / (b : ℚ))

/-- The `ImageInfo` record of `main.go` (JSON rendering fields omitted;
`Filename` is irrelevant to the claims). -/
structure ImageInfo where
  format : String
  width : Int
  height : Int
  colorModel : GoColorModel
  colorSpace : GoColorSpace
  bitDepth : Nat
  hasAlpha : Bool
  hasICCProfile : Bool
  iccProfileSize : Nat
  hdrType : GoHDRType
  chromaSubsampling : GoChroma
  compressionType : GoCompression
  originalSize : Int
  decodedSize : Int
  ratioValue : FloatVal
deriving DecidableEq, Repr

/-- The record as `analyzeImage` first builds it: format and dimensions
from the external sniffer, all other fields Go zero values. -/
def mkBaseInfo (format : String) (w h : Int) : ImageInfo :=
  { format := format
    width := w
    height := h
    colorModel := GoColorModel.Unknown
    colorSpace := GoColorSpace.Unknown
    bitDepth := 0
    hasAlpha := false
    hasICCProfile := false
    iccProfileSize := 0
    hdrType := GoHDRType.None
    chromaSubsampling := GoChroma.NA
    compressionType := GoCompression.Unknown
    originalSize := 0
    decodedSize := 0
    ratioValue := FloatVal.finite 0 }

/-- `detectPNGBitDepth` (main.go): seek to offset 8, read one 8-byte chunk
header; demand `IHDR` with length 13, else default 8; then byte 8 of the
13-byte IHDR body is the bit depth. -/
def detectPNGBitDepth (d : List Nat) : Nat :=
  match readFull d 8 8 with
  | none => 8
  | some buf =>
    let length := be32at buf 0
    let chunkType := sliceAt buf 4 4
    if chunkType ≠ ascii "IHDR" ∨ length ≠ 13 then 8
    else
      match readFull d 16 13 with
      | none => 8
      | some ihdr => byteAt ihdr 8

/-- `detectColorSpaceFromICC` (main.go): below 128 bytes the profile is
"sRGB"; otherwise ordered substring checks over the raw bytes. -/
def detectColorSpaceFromICC (iccData : List Nat) : String :=
  if iccData.length < 128 then "sRGB"
  else if containsBytes iccData (ascii "Display P3") || containsBytes iccData (ascii "P3") then
    "Display P3"
  else if containsBytes iccData (ascii "BT.2020") || containsBytes iccData (ascii "Rec. 2020") then
    "BT.2020"
  else if containsBytes iccData (ascii "BT.709") || containsBytes iccData (ascii "Rec. 709") then
    "BT.709"
  else if containsBytes iccData (ascii "Adobe RGB") then
    "Adobe RGB"
  else "sRGB (ICC)"

/-- `parseColorSpace` (main.go): the string label to enum mapping; every
unrecognized label falls back to sRGB. -/
def parseColorSpace (cs : String) : GoColorSpace :=
  if cs = "sRGB" ∨ cs = "sRGB (ICC)" then GoColorSpace.SRGB
  else if cs = "Adobe RGB" then GoColorSpace.AdobeRGB
  else if cs = "BT.709" then GoColorSpace.BT709
  else if cs = "BT.2020" then GoColorSpace.BT2020
  else if cs = "Display P3" then GoColorSpace.DisplayP3
  else GoColorSpace.SRGB

/-- Chunk loop of `detectPNGICCProfile` (main.go): from `pos`, read 8-byte
chunk headers; an `iCCP` chunk returns its `length` raw bytes, `IEND`
stops, anything else skips `length + 4` bytes (data plus CRC).  Returns
the profile bytes, or `[]` for the "no profile, sRGB" outcome (Go's
`nil`). -/
def pngICCLoop (d : List Nat) (pos : Nat) : List Nat :=
  if h : pos + 8 ≤ d.length then
    let buf := sliceAt d pos 8
    let length := be32at buf 0
    let chunkType := sliceAt buf 4 4
    if chunkType = ascii "iCCP" then
      match readFull d (pos + 8) length with
      | none => []
      | some iccData => iccData
    else if chunkType = ascii "IEND" then []
    else pngICCLoop d (pos + 8 + length + 4)
  else []
termination_by d.length - pos
decreasing_by omega

/-- `detectPNGICCProfile` (main.go): seek to offset 8 and walk chunks;
the paired color-space string is the classifier on the profile when one
is found, `"sRGB"` otherwise (exactly the Go return pairs). -/
def detectPNGICCProfile (d : List Nat) : List Nat × String :=
  let icc := pngICCLoop d 8
  if icc = [] then ([], "sRGB") else (icc, detectColorSpaceFromICC icc)

/-- The color models `image.DecodeConfig` can report, as consumed by
`mapStdColorModel` (main.go). -/
inductive StdColorModel where
  | RGBA
  | RGBA64
  | NRGBA
  | NRGBA64
  | Gray
  | Gray16
  | Alpha
  | Alpha16
  | YCbCr
  | Palette
  | Other
deriving DecidableEq, Repr

/-- `mapStdColorModel` (main.go): standard-library color model to the
program's `ColorModel` plus alpha flag. -/
def mapStdColorModel (cm : StdColorModel) : GoColorModel × Bool :=
  match cm with
  | StdColorModel.RGBA => (GoColorModel.RGB, true)
  | StdColorModel.RGBA64 => (GoColorModel.RGB, true)
  | StdColorModel.NRGBA => (GoColorModel.RGB, true)
  | StdColorModel.NRGBA64 => (GoColorModel.RGB, true)
  | StdColorModel.Gray => (GoColorModel.Grayscale, false)
  | StdColorModel.Gray16 => (GoColorModel.Grayscale, false)
  | StdColorModel.Alpha => (GoColorModel.Grayscale, true)
  | StdColorModel.Alpha16 => (GoColorModel.Grayscale, true)
  | StdColorModel.YCbCr => (GoColorModel.YCbCr, false)
  | StdColorModel.Palette => (GoColorModel.Indexed, false)
  | StdColorModel.Other => (GoColorModel.Unknown, false)

/-- `analyzePNG` (main.go): lossless, no subsampling, bit depth from the
IHDR walker (16-bit raises Limited HDR), ICC profile from the chunk
walker, sRGB default color space. -/
def analyzePNG (d : List Nat) (cm : StdColorModel) (info : ImageInfo) : ImageInfo :=
  let mapped := mapStdColorModel cm
  let bitDepth := detectPNGBitDepth d
  let hdr := if bitDepth = 16 then GoHDRType.Limited else GoHDRType.None
  let icc := detectPNGICCProfile d
  if icc.1.length > 0 then
    { info with
      colorModel := mapped.1
      hasAlpha := mapped.2
      compressionType := GoCompression.Lossless
      chromaSubsampling := GoChroma.NA
      hdrType := hdr
      bitDepth := bitDepth
      hasICCProfile := true
      iccProfileSize := icc.1.length
      colorSpace := parseColorSpace icc.2 }
  else
    { info with
      colorModel := mapped.1
      hasAlpha := mapped.2
      compressionType := GoCompression.Lossless
      chromaSubsampling := GoChroma.NA
      hdrType := hdr
      bitDepth := bitDepth
      colorSpace := GoColorSpace.SRGB }

/-- The SOF sampling-factor classification of `detectJPEGSubsampling`
(main.go): high/low nibbles of the luma and first-chroma sampling bytes
against the three known ratios, otherwise the literal `Custom` label. -/
def classifySampling (ySample cbSample : Nat) : String :=
  let yH := (ySample >>> 4) &&& 15
  let yV := ySample &&& 15
  let cbH := (cbSample >>> 4) &&& 15
  let cbV := cbSample &&& 15
  if yH = 1 ∧ yV = 1 ∧ cbH = 1 ∧ cbV = 1 then "4:4:4"
  else if yH = 2 ∧ yV = 1 ∧ cbH = 1 ∧ cbV = 1 then "4:2:2"
  else if yH = 2 ∧ yV = 2 ∧ cbH = 1 ∧ cbV = 1 then "4:2:0"
  else
    "Custom (" ++ toString yH ++ "x" ++ toString yV ++ ":" ++
      toString cbH ++ "x" ++ toString cbV ++ ")"

/-- Marker loop of `detectJPEGSubsampling` (main.go) from position `pos`
(just after a consumed marker or SOI).  `none` models the Go runtime
panic of `make([]byte, length-2)` when a SOF segment stores a 16-bit
length below 2.  A non-SOF marker `m` with stored length `L` resumes at
`pos + 2 + L` (marker bytes, length bytes, then a relative seek by
`L - 2`, which Go computes in `int` and may be negative). -/
def jpegSubLoop (d : List Nat) (pos : Nat) : Option String :=
  if h : pos + 2 ≤ d.length then
    if byteAt d pos ≠ 255 then some "Unknown"
    else
      let marker := byteAt d (pos + 1)
      if marker = 192 ∨ marker = 193 ∨ marker = 194 then
        if h2 : pos + 4 ≤ d.length then
          let length := be16at d (pos + 2)
          if length < 2 then none
          else if h3 : pos + 4 + (length - 2) ≤ d.length then
            let sofData := sliceAt d (pos + 4) (length - 2)
            if sofData.length < 6 then some "Unknown"
            else
              let numComponents := byteAt sofData 5
              if numComponents < 3 then some "Grayscale"
              else if sofData.length < 6 + numComponents * 3 then some "Unknown"
              else some (classifySampling (byteAt sofData 7) (byteAt sofData 10))
          else some "Unknown"
        else some "Unknown"
      else if marker = 217 then some "Unknown"
      else
        if h5 : pos + 4 ≤ d.length then
          jpegSubLoop d (pos + 2 + be16at d (pos + 2))
        else some "Unknown"
  else some "Unknown"
termination_by d.length - pos
decreasing_by omega

/-- `detectJPEGSubsampling` (main.go): SOI check then the marker loop. -/
def detectJPEGSubsampling (d : List Nat) : Option String :=
  if 2 ≤ d.length then
    if byteAt d 0 ≠ 255 ∨ byteAt d 1 ≠ 216 then some "Unknown"
    else jpegSubLoop d 2
  else some "Unknown"

/-- Marker loop of `is12BitJPEG` (main.go).  `none` models the same
`make([]byte, length-2)` runtime panic; a SOF whose stored length is
exactly 2 (empty body) falls through to the generic skip, exactly as
the Go control flow does. -/
def is12BitLoop (d : List Nat) (pos : Nat) : Option Bool :=
  if h : pos + 2 ≤ d.length then
    if byteAt d pos ≠ 255 then some false
    else
      let marker := byteAt d (pos + 1)
      if marker = 192 ∨ marker = 193 ∨ marker = 194 then
        if h2 : pos + 4 ≤ d.length then
          let length := be16at d (pos + 2)
          if length < 2 then none
          else if h3 : pos + 4 + (length - 2) ≤ d.length then
            if 0 < length - 2 then some (decide (byteAt d (pos + 4) = 12))
            else
              if h4 : pos + 6 ≤ d.length then
                is12BitLoop d (pos + 4 + be16at d (pos + 4))
              else some false
          else some false
        else some false
      else if marker = 217 then some false
      else
        if h5 : pos + 4 ≤ d.length then
          is12BitLoop d (pos + 2 + be16at d (pos + 2))
        else some false
  else some false
termination_by d.length - pos
decreasing_by all_goals omega

/-- `is12BitJPEG` (main.go): SOI check then the marker loop. -/
def is12BitJPEG (d : List Nat) : Option Bool :=
  if 2 ≤ d.length then
    if byteAt d 0 ≠ 255 ∨ byteAt d 1 ≠ 216 then some false
    else is12BitLoop d 2
  else some false

/-- Marker loop of `detectJPEGICCProfile` (main.go).  An APP2 (0xE2)
segment whose body starts with `ICC_PROFILE\x00` yields the body from
byte 14 on.  `none` models the two runtime panics on this path:
`make([]byte, length)` with the stored 16-bit length below 2 (negative
`int` size), and `data[14:]` on a 13-byte body. -/
def jpegICCLoop (d : List Nat) (pos : Nat) : Option (List Nat × String) :=
  if h : pos + 2 ≤ d.length then
    if byteAt d pos ≠ 255 then some ([], "sRGB")
    else
      let marker := byteAt d (pos + 1)
      if marker = 217 then some ([], "sRGB")
      else
        if h2 : pos + 4 ≤ d.length then
          let length := be16at d (pos + 2)
          if marker = 226 then
            if length < 2 then none
            else if h3 : pos + 4 + (length - 2) ≤ d.length then
              let dat := sliceAt d (pos + 4) (length - 2)
              if dat.length > 12 ∧ sliceAt dat 0 12 = ascii "ICC_PROFILE" ++ [0] then
                if dat.length < 14 then none
                else some (dat.drop 14, detectColorSpaceFromICC (dat.drop 14))
              else jpegICCLoop d (pos + 2 + length)
            else some ([], "sRGB")
          else jpegICCLoop d (pos + 2 + length)
        else some ([], "sRGB")
  else some ([], "sRGB")
termination_by d.length - pos
decreasing_by all_goals omega

/-- `detectJPEGICCProfile` (main.go): SOI check then the marker loop. -/
def detectJPEGICCProfile (d : List Nat) : Option (List Nat × String) :=
  if 2 ≤ d.length then
    if byteAt d 0 ≠ 255 ∨ byteAt d 1 ≠ 216 then some ([], "sRGB")
    else jpegICCLoop d 2
  else some ([], "sRGB")

/-- `analyzeJPEG` (main.go): lossy, no alpha, no HDR; 12-bit detection,
subsampling label to enum, ICC profile and color space.  `none` models a
runtime panic inside any of the three JPEG walkers aborting the whole
analysis. -/
def analyzeJPEG (d : List Nat) (info : ImageInfo) : Option ImageInfo :=
  match is12BitJPEG d with
  | none => none
  | some b12 =>
    match detectJPEGSubsampling d with
    | none => none
    | some sub =>
      match detectJPEGICCProfile d with
      | none => none
      | some icc =>
        let bitDepth := if b12 then 12 else 8
        let pair : GoColorModel × GoChroma :=
          if sub = "4:4:4" then (GoColorModel.YCbCr, GoChroma.S444)
          else if sub = "4:2:2" then (GoColorModel.YCbCr, GoChroma.S422)
          else if sub = "4:2:0" then (GoColorModel.YCbCr, GoChroma.S420)
          else if sub = "Grayscale" then (GoColorModel.Grayscale, GoChroma.NA)
          else (GoColorModel.YCbCr, GoChroma.Unknown)
        if icc.1.length > 0 then
          some { info with
            compressionType := GoCompression.Lossy
            hasAlpha := false
            hdrType := GoHDRType.None
            bitDepth := bitDepth
            colorModel := pair.1
            chromaSubsampling := pair.2
            hasICCProfile := true
            iccProfileSize := icc.1.length
            colorSpace := parseColorSpace icc.2 }
        else
          some { info with
            compressionType := GoCompression.Lossy
            hasAlpha := false
            hdrType := GoHDRType.None
            bitDepth := bitDepth
            colorModel := pair.1
            chromaSubsampling := pair.2
            colorSpace := GoColorSpace.SRGB }

/-- `detectWebPFormat` (main.go): 12-byte RIFF/WEBP header check, then the
first sub-chunk FourCC classifies lossless (`VP8L`), lossy (`VP8 `, fixed
4:2:0), or unknown. -/
def detectWebPFormat (d : List Nat) : Bool × GoChroma :=
  if 12 ≤ d.length then
    if sliceAt d 0 4 ≠ ascii "RIFF" then (false, GoChroma.Unknown)
    else if sliceAt d 8 4 ≠ ascii "WEBP" then (false, GoChroma.Unknown)
    else if 16 ≤ d.length then
      let fourCC := sliceAt d 12 4
      if fourCC = ascii "VP8L" then (true, GoChroma.NA)
      else if fourCC = ascii "VP8 " then (false, GoChroma.S420)
      else (false, GoChroma.Unknown)
    else (false, GoChroma.Unknown)
  else (false, GoChroma.Unknown)

/-- `analyzeWebP` (main.go): always 8-bit, no HDR, sRGB; compression and
subsampling from the RIFF sniffer. -/
def analyzeWebP (d : List Nat) (cm : StdColorModel) (info : ImageInfo) : ImageInfo :=
  let mapped := mapStdColorModel cm
  let wf := detectWebPFormat d
  { info with
    bitDepth := 8
    hdrType := GoHDRType.None
    colorModel := mapped.1
    hasAlpha := mapped.2
    compressionType := if wf.1 then GoCompression.Lossless else GoCompression.Lossy
    chromaSubsampling := if wf.1 then GoChroma.NA else wf.2
    colorSpace := GoColorSpace.SRGB }

/-- The `heifMetadata` struct of main.go. -/
structure HeifMetadata where
  colorModel : GoColorModel
  hasAlpha : Bool
  bitDepth : Nat
  colorSpace : GoColorSpace
  chromaSubsampling : GoChroma
  hdrType : GoHDRType
deriving DecidableEq, Repr

/-- The hard-coded defaults `parseHEIFMetadata` starts from: YCbCr, no
alpha, 8-bit, BT.709, 4:2:0, no HDR. -/
def defaultHeifMeta : HeifMetadata :=
  { colorModel := GoColorModel.YCbCr
    hasAlpha := false
    bitDepth := 8
    colorSpace := GoColorSpace.BT709
    chromaSubsampling := GoChroma.S420
    hdrType := GoHDRType.None }

/-- The `colr` box handler, duplicated verbatim in `parseHEIFMetadata`
and `parseIpcoBox` (main.go): recognized only when the first four payload
bytes are `nclx`; big-endian color primaries at bytes 4–6 (1 → BT.709,
9 → BT.2020, 12 → Display P3, others keep the current value) and
transfer characteristic at bytes 6–8 (16 → PQ, 18 → HLG, others keep the
current value).  Go guards with `len(boxData) >= 4` before slicing; the
equality of the 4-byte slice with `nclx` already forces that length, so
the two conditions collapse to one here. -/
def applyColr (boxData : List Nat) (m : HeifMetadata) : HeifMetadata :=
  if sliceAt boxData 0 4 = ascii "nclx" ∧ 8 ≤ boxData.length then
    let colorPrimaries := be16at boxData 4
    let transferChar := be16at boxData 6
    let m1 :=
      if colorPrimaries = 1 then { m with colorSpace := GoColorSpace.BT709 }
      else if colorPrimaries = 9 then { m with colorSpace := GoColorSpace.BT2020 }
      else if colorPrimaries = 12 then { m with colorSpace := GoColorSpace.DisplayP3 }
      else m
    if transferChar = 16 then { m1 with hdrType := GoHDRType.PQ }
    else if transferChar = 18 then { m1 with hdrType := GoHDRType.HLG }
    else m1
  else m

/-- The `auxC` box handler (main.go): the literal alpha URN anywhere in
the payload marks an alpha plane. -/
def applyAuxC (boxData : List Nat) (m : HeifMetadata) : HeifMetadata :=
  if containsBytes boxData (ascii "urn:mpeg:mpegB:cicp:systems:auxiliary:alpha") then
    { m with hasAlpha := true }
  else m

/-- Box loop of `parseIpcoBox` (main.go): terminal `pixi` (channel count
at payload byte 1, bit depth at byte 2), `colr`, `auxC`. -/
def parseIpcoLoop (d : List Nat) (offset : Nat) (m : HeifMetadata) : HeifMetadata :=
  if _h : offset + 8 < d.length then
    let boxSize := be32at d offset
    let boxType := sliceAt d (offset + 4) 4
    if _h2 : boxSize < 8 ∨ offset + boxSize > d.length then m
    else
      let boxData := sliceAt d (offset + 8) (boxSize - 8)
      let m2 :=
        if boxType = ascii "pixi" then
          if 3 ≤ boxData.length then
            let numChannels := byteAt boxData 1
            if 0 < numChannels ∧ 2 + numChannels ≤ boxData.length then
              { m with bitDepth := byteAt boxData 2 }
            else m
          else m
        else if boxType = ascii "colr" then applyColr boxData m
        else if boxType = ascii "auxC" then applyAuxC boxData m
        else m
      parseIpcoLoop d (offset + boxSize) m2
  else m
termination_by d.length - offset
decreasing_by omega

/-- Box loop of `parseIprpBox` (main.go): descends only into `ipco`. -/
def parseIprpLoop (d : List Nat) (offset : Nat) (m : HeifMetadata) : HeifMetadata :=
  if _h : offset + 8 < d.length then
    let boxSize := be32at d offset
    let boxType := sliceAt d (offset + 4) 4
    if _h2 : boxSize < 8 ∨ offset + boxSize > d.length then m
    else
      let boxData := sliceAt d (offset + 8) (boxSize - 8)
      let m2 := if boxType = ascii "ipco" then parseIpcoLoop boxData 0 m else m
      parseIprpLoop d (offset + boxSize) m2
  else m
termination_by d.length - offset
decreasing_by omega

/-- Box loop of `parseMetaBox` (main.go): starts past the 4-byte
version/flags field and descends only into `iprp` — in particular a
`pixi` box directly inside `meta` is skipped. -/
def parseMetaLoop (d : List Nat) (offset : Nat) (m : HeifMetadata) : HeifMetadata :=
  if _h : offset + 8 < d.length then
    let boxSize := be32at d offset
    let boxType := sliceAt d (offset + 4) 4
    if _h2 : boxSize < 8 ∨ offset + boxSize > d.length then m
    else
      let boxData := sliceAt d (offset + 8) (boxSize - 8)
      let m2 := if boxType = ascii "iprp" then parseIprpLoop boxData 0 m else m
      parseMetaLoop d (offset + boxSize) m2
  else m
termination_by d.length - offset
decreasing_by omega

/-- `parseMetaBox` (main.go). -/
def parseMetaBox (d : List Nat) (m : HeifMetadata) : HeifMetadata :=
  parseMetaLoop d 4 m

/-- Top-level box loop of `parseHEIFMetadata` (main.go): handles `meta`
(recursing), and `pixi` / `colr` / `auxC` when they appear directly at
the top level (siblings of `ftyp`); a declared size exceeding the
remaining buffer is clamped, and the two redundant bounds re-checks of
the Go code are provably dead under `offset + 8 < len` and are collapsed
here. -/
def parseHEIFLoop (d : List Nat) (offset : Nat) (m : HeifMetadata) : HeifMetadata :=
  if _h : offset + 8 < d.length then
    let boxSize := be32at d offset
    if _h2 : boxSize = 0 ∨ boxSize < 8 then m
    else
      let boxType := sliceAt d (offset + 4) 4
      let bs := if boxSize > d.length - offset then d.length - offset else boxSize
      let boxData := sliceAt d (offset + 8) (bs - 8)
      let m2 :=
        if boxType = ascii "meta" then parseMetaBox boxData m
        else if boxType = ascii "pixi" then
          if 3 ≤ boxData.length then { m with bitDepth := byteAt boxData 2 } else m
        else if boxType = ascii "colr" then applyColr boxData m
        else if boxType = ascii "auxC" then applyAuxC boxData m
        else m
      parseHEIFLoop d (offset + bs) m2
  else m
termination_by d.length - offset
decreasing_by split <;> omega

/-- `parseHEIFMetadata` (main.go): a single bounded read of at most
16 KiB, a length check (below 12 bytes: defaults), the `ftyp` check at
bytes 4–8 (not `ftyp`: defaults), then the top-level box loop. -/
def parseHEIFMetadata (d0 : List Nat) : HeifMetadata :=
  let d := d0.take 16384
  if d.length < 12 then defaultHeifMeta
  else if sliceAt d 4 4 ≠ ascii "ftyp" then defaultHeifMeta
  else parseHEIFLoop d 0 defaultHeifMeta

/-- `analyzeHEIF` (main.go): hybrid compression plus every field of the
box-walker metadata; the ICC fields of `info` are never touched. -/
def analyzeHEIF (d : List Nat) (info : ImageInfo) : ImageInfo :=
  let m := parseHEIFMetadata d
  { info with
    compressionType := GoCompression.Hybrid
    colorModel := m.colorModel
    hasAlpha := m.hasAlpha
    bitDepth := m.bitDepth
    colorSpace := m.colorSpace
    chromaSubsampling := m.chromaSubsampling
    hdrType := m.hdrType }

/-- `analyzeAVIF` (main.go): identical body to `analyzeHEIF`. -/
def analyzeAVIF (d : List Nat) (info : ImageInfo) : ImageInfo :=
  let m := parseHEIFMetadata d
  { info with
    compressionType := GoCompression.Hybrid
    colorModel := m.colorModel
    hasAlpha := m.hasAlpha
    bitDepth := m.bitDepth
    colorSpace := m.colorSpace
    chromaSubsampling := m.chromaSubsampling
    hdrType := m.hdrType }

/-- The format dispatch of `analyzeImage` (main.go), given the external
sniffer's result `(format, w, h, cm)` and the file bytes.  `none` models
a runtime panic inside the JPEG walkers. -/
def analyzeImageDispatch (format : String) (w hgt : Int) (cm : StdColorModel)
    (d : List Nat) : Option ImageInfo :=
  let info := mkBaseInfo format w hgt
  if format = "png" then some (analyzePNG d cm info)
  else if format = "jpeg" then analyzeJPEG d info
  else if format = "webp" then some (analyzeWebP d cm info)
  else if format = "heif" then some (analyzeHEIF d info)
  else if format = "avif" then some (analyzeAVIF d info)
  else some { info with
    colorModel := GoColorModel.Unknown
    colorSpace := GoColorSpace.Unknown
    bitDepth := 8 }

/-- `calculateBytesPerPixel` (main.go): `bytesPerChannel` is the rounded-up
byte count of the bit depth (Go `(bitDepth+7)/8`). -/
def calculateBytesPerPixel (info : ImageInfo) : Nat :=
  let bytesPerChannel := (info.bitDepth + 7) / 8
  match info.colorModel with
  | GoColorModel.Grayscale => if info.hasAlpha then 2 * bytesPerChannel else bytesPerChannel
  | GoColorModel.Indexed => 1
  | GoColorModel.RGB => if info.hasAlpha then 4 * bytesPerChannel else 3 * bytesPerChannel
  | GoColorModel.YCbCr => 3 * bytesPerChannel
  | GoColorModel.Unknown => 4

/-- Two's-complement wrap-around of Go `int64` arithmetic. -/
def wrap64 (i : Int) : Int := (i + 2 ^ 63) % 2 ^ 64 - 2 ^ 63

/-- The size/ratio aggregation shared by `estimateDecodedSize` and the
worker body of `processBatch` (main.go): decoded size is
`int64(width) * int64(height) * int64(bytesPerPixel)` (64-bit products,
hence `wrap64`), the compression ratio is the unconditional `float64`
division `decodedSize / originalSize` — there is no zero-size branch
and no error return on this path. -/
def finishRecord (info : ImageInfo) (originalSize : Int) : ImageInfo :=
  let bytesPerPixel := calculateBytesPerPixel info
  let decodedSize := wrap64 (info.width * info.height * (bytesPerPixel : Int))
  { info with
    originalSize := originalSize
    decodedSize := decodedSize
    ratioValue := goFloatDiv decodedSize originalSize }

/-! ## Basic facts about the byte-stream primitives -/

theorem byteAt_sliceAt (d : List Nat) (s n i : Nat) (hi : i < n) :
    byteAt (sliceAt d s n) i = byteAt d (s + i) := by
  unfold byteAt sliceAt
  simp [List.getElem?_take_of_lt hi, List.getElem?_drop]

theorem sliceAt_sliceAt (d : List Nat) (s n s2 n2 : Nat) (h : s2 + n2 ≤ n) :
    sliceAt (sliceAt d s n) s2 n2 = sliceAt d (s + s2) n2 := by
  unfold sliceAt
  rw [List.drop_take, List.drop_drop, List.take_take, Nat.min_eq_left (by omega)]

theorem sliceAt_length (d : List Nat) (s n : Nat) (h : s + n ≤ d.length) :
    (sliceAt d s n).length = n := by
  unfold sliceAt
  rw [List.length_take, List.length_drop]
  omega

theorem be16at_sliceAt (d : List Nat) (s n i : Nat) (h : i + 2 ≤ n) :
    be16at (sliceAt d s n) i = be16at d (s + i) := by
  unfold be16at
  rw [byteAt_sliceAt d s n i (by omega), byteAt_sliceAt d s n (i + 1) (by omega)]
  ring_nf

theorem be32at_sliceAt (d : List Nat) (s n i : Nat) (h : i + 4 ≤ n) :
    be32at (sliceAt d s n) i = be32at d (s + i) := by
  unfold be32at
  rw [byteAt_sliceAt d s n i (by omega), byteAt_sliceAt d s n (i + 1) (by omega),
    byteAt_sliceAt d s n (i + 2) (by omega), byteAt_sliceAt d s n (i + 3) (by omega)]
  ring_nf

theorem sliceAt_append_right (a b : List Nat) (i n : Nat) :
    sliceAt (a ++ b) (a.length + i) n = sliceAt b i n := by
  unfold sliceAt
  rw [List.drop_append_eq_append_drop, show a.length + i - a.length = i by omega,
    List.drop_eq_nil_of_le (by omega : a.length ≤ a.length + i)]
  simp

theorem byteAt_append_right (a b : List Nat) (i : Nat) :
    byteAt (a ++ b) (a.length + i) = byteAt b i := by
  unfold byteAt
  simp [List.getElem?_append_right (by omega : a.length ≤ a.length + i)]

theorem sliceAt_append_left (a b : List Nat) (i n : Nat) (h : i + n ≤ a.length) :
    sliceAt (a ++ b) i n = sliceAt a i n := by
  unfold sliceAt
  rw [List.drop_append_eq_append_drop, show i - a.length = 0 by omega]
  simp only [List.drop_zero]
  rw [List.take_append_eq_append_take, show n - (a.drop i).length = 0 by
    rw [List.length_drop]; omega]
  simp

theorem byteAt_append_left (a b : List Nat) (i : Nat) (h : i < a.length) :
    byteAt (a ++ b) i = byteAt a i := by
  unfold byteAt
  rw [List.getD_eq_getElem?_getD, List.getD_eq_getElem?_getD, List.getElem?_append, if_pos h]

/-! ## Claim C4: the PNG bit-depth walker -/

theorem readFull_eq_some (d : List Nat) (pos n : Nat) (h : pos + n ≤ d.length) :
    readFull d pos n = some (sliceAt d pos n) := by
  unfold readFull
  rw [if_pos h]

theorem readFull_eq_none (d : List Nat) (pos n : Nat) (h : d.length < pos + n) :
    readFull d pos n = none := by
  unfold readFull
  rw [if_neg (by omega)]

/-- C4: the PNG bit-depth walker seeks to offset 8 and reads the 8-byte
chunk header there; whenever the first chunk is `IHDR` with declared
length exactly 13 and the 13-byte body is present (stream length ≥ 29),
it returns byte index 8 of that body — absolute offset 24, which in a
valid PNG is exactly the bit depth b ∈ {1,2,4,8,16}; for every other
stream (wrong chunk type, wrong declared length, or truncated) it
returns the fallback 8, never an error. -/
theorem C4_png_bit_depth_walker (d : List Nat) :
    (29 ≤ d.length → sliceAt d 12 4 = ascii "IHDR" → be32at d 8 = 13 →
      detectPNGBitDepth d = byteAt d 24)
    ∧ (sliceAt d 12 4 ≠ ascii "IHDR" ∨ be32at d 8 ≠ 13 ∨ d.length < 29 →
      detectPNGBitDepth d = 8) := by
  constructor
  · intro hlen htype hthirteen
    unfold detectPNGBitDepth
    rw [readFull_eq_some d 8 8 (by omega), readFull_eq_some d 16 13 (by omega)]
    simp only
    rw [sliceAt_sliceAt d 8 8 4 4 (by omega), be32at_sliceAt d 8 8 0 (by omega),
      byteAt_sliceAt d 16 13 8 (by omega)]
    rw [if_neg (by simp [htype, hthirteen])]
  · intro hbad
    unfold detectPNGBitDepth
    by_cases h16 : 8 + 8 ≤ d.length
    · rw [readFull_eq_some d 8 8 h16]
      simp only
      rw [sliceAt_sliceAt d 8 8 4 4 (by omega), be32at_sliceAt d 8 8 0 (by omega)]
      by_cases hcond : sliceAt d 12 4 ≠ ascii "IHDR" ∨ be32at d 8 ≠ 13
      · rw [if_pos hcond]
      · rw [if_neg hcond]
        push_neg at hcond
        have hlt : d.length < 29 := by
          rcases hbad with h | h | h
          · exact absurd hcond.1 h
          · exact absurd hcond.2 h
          · exact h
        rw [readFull_eq_none d 16 13 (by omega)]
    · rw [readFull_eq_none d 8 8 (by omega)]

/-- Witness for C4: a 29-byte stream whose first chunk is an IHDR of
length 13 with bit-depth byte 16 yields 16, and the empty stream yields
the fallback 8. -/
theorem C4_witness :
    detectPNGBitDepth
      [137, 80, 78, 71, 13, 10, 26, 10,
       0, 0, 0, 13, 73, 72, 68, 82,
       0, 0, 0, 1, 0, 0, 0, 1, 16, 6, 0, 0, 0] = 16
    ∧ detectPNGBitDepth [] = 8 := by
  constructor
  · exact (C4_png_bit_depth_walker _).1 (by decide) (by decide) (by decide)
  · exact (C4_png_bit_depth_walker _).2 (by decide)

/-! ## Claims C3, C9, C1: bytes-per-pixel model, decoded size, ratio -/

/-- Spec-side bytes-per-pixel table (§4.7 of the spec, stated with the
ceiling division the spec uses), for comparison against the code's
`calculateBytesPerPixel`. -/
def bytesPerPixelSpecTable (cm : GoColorModel) (bitDepth : Nat) (alpha : Bool) : Nat :=
  let bytesPerChannel := bitDepth ⌈/⌉ 8
  match cm with
  | GoColorModel.Grayscale => if alpha then 2 * bytesPerChannel else bytesPerChannel
  | GoColorModel.Indexed => 1
  | GoColorModel.RGB => if alpha then 4 * bytesPerChannel else 3 * bytesPerChannel
  | GoColorModel.YCbCr => 3 * bytesPerChannel
  | GoColorModel.Unknown => 4

theorem wrap64_eq_of_bounds (i : Int) (h1 : -(2 ^ 63) ≤ i) (h2 : i < 2 ^ 63) :
    wrap64 i = i := by
  unfold wrap64
  rw [Int.emod_eq_of_lt (by omega) (by omega)]
  omega

/-- C3: the decoded size of every record is exactly
`width * height * bytesPerPixel`, and the code's bytes-per-pixel function
agrees with the spec's table (bytesPerChannel = ⌈bitDepth/8⌉; Grayscale →
bpc, doubled with alpha; Indexed → 1; RGB → 3·bpc or 4·bpc with alpha;
YCbCr → 3·bpc; Unknown → 4).  The product bound keeps the 64-bit
arithmetic of the Go code exact (its absence is claim C9's subject). -/
theorem C3_decoded_size_exact (info : ImageInfo) (orig : Int)
    (hw : 0 ≤ info.width) (hh : 0 ≤ info.height)
    (hfit : info.width * info.height * (calculateBytesPerPixel info : Int) < 2 ^ 63) :
    (finishRecord info orig).decodedSize
      = info.width * info.height * (calculateBytesPerPixel info : Int)
    ∧ calculateBytesPerPixel info
      = bytesPerPixelSpecTable info.colorModel info.bitDepth info.hasAlpha := by
  constructor
  · show wrap64 _ = _
    refine wrap64_eq_of_bounds _ ?_ hfit
    have : (0:Int) ≤ info.width * info.height * (calculateBytesPerPixel info : Int) := by
      have hc : (0:Int) ≤ (calculateBytesPerPixel info : Int) := Int.ofNat_nonneg _
      exact mul_nonneg (mul_nonneg hw hh) hc
    omega
  · unfold calculateBytesPerPixel bytesPerPixelSpecTable
    have hceil : info.bitDepth ⌈/⌉ 8 = (info.bitDepth + 7) / 8 := by
      rw [Nat.ceilDiv_eq_add_pred_div]
      congr 1
    rw [hceil]
  
/-- Witness for C3: a 500×500 RGBA 8-bit record decodes to exactly
1,000,000 bytes, with bytes-per-pixel 4. -/
theorem C3_witness :
    (finishRecord
      { mkBaseInfo "png" 500 500 with
        colorModel := GoColorModel.RGB, hasAlpha := true, bitDepth := 8 }
      2000).decodedSize = 1000000 := by
  have h := (C3_decoded_size_exact
    { mkBaseInfo "png" 500 500 with
      colorModel := GoColorModel.RGB, hasAlpha := true, bitDepth := 8 }
    2000 (by norm_num [mkBaseInfo]) (by norm_num [mkBaseInfo])
    (by norm_num [mkBaseInfo, calculateBytesPerPixel])).1
  rw [h]
  norm_num [mkBaseInfo, calculateBytesPerPixel]

/-- C9 counterexample: the claim says overflow of
`width * height * bytesPerPixel` "is checked"; the code has no such
check, and for a sniffer-reported width of 2^61 (well inside Go's `int`)
with height 1 and the default bytes-per-pixel 4 the 64-bit product wraps
to -2^63: the produced record carries a negative decoded size, refuting
both the "never negative" and the "overflow is checked" parts. -/
theorem C9_counterexample :
    (finishRecord (mkBaseInfo "png" (2 ^ 61) 1) 100).decodedSize < 0 := by
  show wrap64 _ < 0
  norm_num [mkBaseInfo, calculateBytesPerPixel, wrap64]

/-- C9 as amended: the decoded size is computed as
`int64(width) * int64(height) * int64(bytesPerPixel)` in wrapping 64-bit
arithmetic with no overflow check; whenever the true product fits below
2^63 (every real image) the result is exact and never negative, but for
larger sniffer-reported dimensions it silently wraps. -/
theorem C9_decoded_size_wrap (info : ImageInfo) (orig : Int)
    (hw : 0 ≤ info.width) (hh : 0 ≤ info.height)
    (hfit : info.width * info.height * (calculateBytesPerPixel info : Int) < 2 ^ 63) :
    0 ≤ (finishRecord info orig).decodedSize := by
  show 0 ≤ wrap64 _
  have hnn : (0:Int) ≤ info.width * info.height * (calculateBytesPerPixel info : Int) :=
    mul_nonneg (mul_nonneg hw hh) (Int.ofNat_nonneg _)
  rw [wrap64_eq_of_bounds _ (by omega) hfit]
  exact hnn

/-- Witness for C9 (amended): a 500×500 RGBA record has a nonnegative
decoded size. -/
theorem C9_witness :
    0 ≤ (finishRecord
      { mkBaseInfo "png" 500 500 with
        colorModel := GoColorModel.RGB, hasAlpha := true, bitDepth := 8 }
      2000).decodedSize :=
  C9_decoded_size_wrap _ 2000 (by norm_num [mkBaseInfo]) (by norm_num [mkBaseInfo])
    (by norm_num [mkBaseInfo, calculateBytesPerPixel])

/-- C1 counterexample: on a record whose original size is 0 the
aggregation step of `estimateDecodedSize`/`processBatch` does not reject
with an error — it performs the float division anyway and stores +Inf
(the claim asserts an error is returned instead). -/
theorem C1_counterexample :
    (finishRecord
      { mkBaseInfo "png" 500 500 with
        colorModel := GoColorModel.RGB, hasAlpha := true, bitDepth := 8 }
      0).ratioValue = FloatVal.inf := by
  decide

/-- C1 as amended: the aggregator never rejects on a zero original size;
it always computes `compression_ratio = float64(decoded)/float64(original)`.
For a positive original size this is the exact quotient; for original
size 0 it silently stores +Inf (or NaN when the decoded size is 0 too,
or -Inf after a 64-bit wrap to a negative decoded size). -/
theorem C1_ratio_computation (info : ImageInfo) (orig : Int) :
    (0 < orig → (finishRecord info orig).ratioValue
      = FloatVal.finite (((finishRecord info orig).decodedSize : ℚ) / (orig : ℚ)))
    ∧ (orig = 0 → 0 < (finishRecord info orig).decodedSize →
      (finishRecord info orig).ratioValue = FloatVal.inf) := by
  have hds : (finishRecord info orig).decodedSize
      = wrap64 (info.width * info.height * (calculateBytesPerPixel info : Int)) := rfl
  have hrv : (finishRecord info orig).ratioValue
      = goFloatDiv (wrap64 (info.width * info.height * (calculateBytesPerPixel info : Int)))
          orig := rfl
  constructor
  · intro hpos
    rw [hrv, hds]
    unfold goFloatDiv
    rw [if_neg (by omega)]
  · intro hzero hdec
    rw [hds] at hdec
    rw [hrv]
    unfold goFloatDiv
    rw [if_pos hzero, if_neg (by omega), if_pos hdec]

/-- Witness for C1 (amended): with original size 2000 the 500×500 RGBA
record carries the finite exact ratio 500; with original size 0 it
carries +Inf. -/
theorem C1_witness :
    (finishRecord
      { mkBaseInfo "png" 500 500 with
        colorModel := GoColorModel.RGB, hasAlpha := true, bitDepth := 8 }
      2000).ratioValue = FloatVal.finite 500 := by
  have h := (C1_ratio_computation
    { mkBaseInfo "png" 500 500 with
      colorModel := GoColorModel.RGB, hasAlpha := true, bitDepth := 8 }
    2000).1 (by norm_num)
  rw [h]
  have hdec : (finishRecord
      { mkBaseInfo "png" 500 500 with
        colorModel := GoColorModel.RGB, hasAlpha := true, bitDepth := 8 }
      2000).decodedSize = 1000000 := by
    show wrap64 _ = _
    rw [wrap64_eq_of_bounds] <;> norm_num [mkBaseInfo, calculateBytesPerPixel]
  rw [hdec]
  norm_num

/-! ## Claim C2: walkers and runtime panics -/

/-- C2 evaluation: on the six-byte stream `FF D8 FF C0 00 00` (a valid
SOI followed by a SOF0 marker whose stored segment length is 0) the
subsampling walker executes Go's `make([]byte, length-2)` with a
negative size and panics (`makeslice: len out of range`) — modelled as
`none` — instead of returning the documented default "Unknown".  The
same `length-2` pattern is in `is12BitJPEG`, and `detectJPEGICCProfile`
panics on an APP2 marker with stored length < 2, which is reachable
end-to-end through a DecodeConfig-valid JPEG whose bytes after the SOF
segment are `FF E2 00 00`. -/
theorem C2_panic_eval : detectJPEGSubsampling [255, 216, 255, 192, 0, 0] = none := by
  unfold detectJPEGSubsampling
  rw [jpegSubLoop.eq_def]
  norm_num [byteAt, be16at]

/-! ## Claim C5: JPEG SOF subsampling classification -/

/-- C5: for any position in a JPEG stream where the subsampling walker
reads a SOF marker (0xC0/0xC1/0xC2 after a 0xFF) whose stored segment
length `L` and body are present: a component count (body byte 5, stream
offset pos+9) below 3 classifies the image as Grayscale; with ≥ 3
components the result is the classification of the luma byte (body
byte 7) and first-chroma byte (body byte 10), where the nibble pairs
(1,1,1,1) ↦ "4:4:4", (2,1,1,1) ↦ "4:2:2", (2,2,1,1) ↦ "4:2:0" and
anything else ↦ the literal `Custom (yHxyV:cbHxcbV)` label; an
End-Of-Image marker (0xFFD9) yields "Unknown"; and on a stream opening
with the SOI `0xFFD8` the walker is exactly this loop from offset 2. -/
theorem C5_jpeg_subsampling_walker (d : List Nat) (pos L : Nat)
    (hm : byteAt d pos = 255)
    (hsof : byteAt d (pos + 1) = 192 ∨ byteAt d (pos + 1) = 193 ∨ byteAt d (pos + 1) = 194)
    (hL : be16at d (pos + 2) = L) (hL2 : 2 ≤ L) (hlen : pos + 2 + L ≤ d.length) :
    (8 ≤ L → byteAt d (pos + 9) < 3 → jpegSubLoop d pos = some "Grayscale")
    ∧ (8 ≤ L → 3 ≤ byteAt d (pos + 9) → 8 + byteAt d (pos + 9) * 3 ≤ L →
        jpegSubLoop d pos
          = some (classifySampling (byteAt d (pos + 11)) (byteAt d (pos + 14))))
    ∧ (∀ q, q + 2 ≤ d.length → byteAt d q = 255 → byteAt d (q + 1) = 217 →
        jpegSubLoop d q = some "Unknown")
    ∧ (∀ ys cb, (ys >>> 4) &&& 15 = 1 → ys &&& 15 = 1 → (cb >>> 4) &&& 15 = 1 →
        cb &&& 15 = 1 → classifySampling ys cb = "4:4:4")
    ∧ (∀ ys cb, (ys >>> 4) &&& 15 = 2 → ys &&& 15 = 1 → (cb >>> 4) &&& 15 = 1 →
        cb &&& 15 = 1 → classifySampling ys cb = "4:2:2")
    ∧ (∀ ys cb, (ys >>> 4) &&& 15 = 2 → ys &&& 15 = 2 → (cb >>> 4) &&& 15 = 1 →
        cb &&& 15 = 1 → classifySampling ys cb = "4:2:0")
    ∧ (∀ ys cb yH yV cbH cbV, (ys >>> 4) &&& 15 = yH → ys &&& 15 = yV →
        (cb >>> 4) &&& 15 = cbH → cb &&& 15 = cbV →
        ¬(yH = 1 ∧ yV = 1 ∧ cbH = 1 ∧ cbV = 1) →
        ¬(yH = 2 ∧ yV = 1 ∧ cbH = 1 ∧ cbV = 1) →
        ¬(yH = 2 ∧ yV = 2 ∧ cbH = 1 ∧ cbV = 1) →
        classifySampling ys cb
          = "Custom (" ++ toString yH ++ "x" ++ toString yV ++ ":" ++
              toString cbH ++ "x" ++ toString cbV ++ ")")
    ∧ (2 ≤ d.length → byteAt d 0 = 255 → byteAt d 1 = 216 →
        detectJPEGSubsampling d = jpegSubLoop d 2) := by
  refine ⟨?_, ?_, ?_, ?_, ?_, ?_, ?_, ?_⟩
  · intro hL8 hn
    rw [jpegSubLoop.eq_def]
    rw [dif_pos (show pos + 2 ≤ d.length by omega)]
    rw [if_neg (by simp [hm])]
    rcases hsof with h | h | h <;>
      (simp only [h, hL]
       rw [if_pos (by norm_num)]
       rw [dif_pos (show pos + 4 ≤ d.length by omega)]
       rw [if_neg (show ¬ L < 2 by omega)]
       rw [dif_pos (show pos + 4 + (L - 2) ≤ d.length by omega)]
       rw [sliceAt_length d (pos + 4) (L - 2) (by omega)]
       rw [if_neg (show ¬ L - 2 < 6 by omega)]
       rw [byteAt_sliceAt d (pos + 4) (L - 2) 5 (by omega)]
       rw [show pos + 4 + 5 = pos + 9 by omega]
       rw [if_pos hn])
  · intro hL8 hn hfit
    rw [jpegSubLoop.eq_def]
    rw [dif_pos (show pos + 2 ≤ d.length by omega)]
    rw [if_neg (by simp [hm])]
    rcases hsof with h | h | h <;>
      (simp only [h, hL]
       rw [if_pos (by norm_num)]
       rw [dif_pos (show pos + 4 ≤ d.length by omega)]
       rw [if_neg (show ¬ L < 2 by omega)]
       rw [dif_pos (show pos + 4 + (L - 2) ≤ d.length by omega)]
       rw [sliceAt_length d (pos + 4) (L - 2) (by omega)]
       rw [if_neg (show ¬ L - 2 < 6 by omega)]
       rw [byteAt_sliceAt d (pos + 4) (L - 2) 5 (by omega)]
       rw [show pos + 4 + 5 = pos + 9 by omega]
       rw [if_neg (show ¬ byteAt d (pos + 9) < 3 by omega)]
       rw [if_neg (show ¬ L - 2 < 6 + byteAt d (pos + 9) * 3 by omega)]
       rw [byteAt_sliceAt d (pos + 4) (L - 2) 7 (by omega),
         byteAt_sliceAt d (pos + 4) (L - 2) 10 (by omega)])
  · intro q hq hq255 hq217
    rw [jpegSubLoop.eq_def]
    rw [dif_pos hq]
    rw [if_neg (by simp [hq255])]
    simp only [hq217]
    rw [if_neg (by norm_num)]
    rw [if_pos trivial]
  · intro ys cb h1 h2 h3 h4
    unfold classifySampling
    rw [if_pos ⟨h1, h2, h3, h4⟩]
  · intro ys cb h1 h2 h3 h4
    unfold classifySampling
    rw [if_neg (by simp [h1]), if_pos ⟨h1, h2, h3, h4⟩]
  · intro ys cb h1 h2 h3 h4
    unfold classifySampling
    rw [if_neg (by simp [h2]), if_neg (by simp [h2]), if_pos ⟨h1, h2, h3, h4⟩]
  · intro ys cb yH yV cbH cbV h1 h2 h3 h4 hn1 hn2 hn3
    unfold classifySampling
    simp only [h1, h2, h3, h4]
    rw [if_neg hn1, if_neg hn2, if_neg hn3]
  · intro hd2 h255 h216
    unfold detectJPEGSubsampling
    rw [if_pos hd2, if_neg (by simp [h255, h216])]

/-- Witness for C5: a JPEG consisting of an SOI and a three-component
SOF0 with luma sampling byte 0x22 and chroma sampling byte 0x11
classifies as "4:2:0". -/
theorem C5_witness :
    detectJPEGSubsampling
      [255, 216, 255, 192, 0, 17, 8, 0, 1, 0, 1, 3, 1, 34, 0, 2, 17, 1, 3, 17, 1]
      = some "4:2:0" := by
  have h := C5_jpeg_subsampling_walker
    [255, 216, 255, 192, 0, 17, 8, 0, 1, 0, 1, 3, 1, 34, 0, 2, 17, 1, 3, 17, 1]
    2 17 (by decide) (by decide) (by decide) (by decide) (by decide)
  rw [h.2.2.2.2.2.2.2 (by decide) (by decide) (by decide)]
  rw [h.2.1 (by decide) (by decide) (by decide)]
  decide

/-! ## Claim C6: HEIF/AVIF defaults and the nclx colr box -/

theorem sliceAt_take (d : List Nat) (N s n : Nat) (h : s + n ≤ N) :
    sliceAt (d.take N) s n = sliceAt d s n := by
  unfold sliceAt
  rw [List.drop_take, List.take_take, Nat.min_eq_left (by omega)]

/-- C6: when bytes 4–8 of a HEIF/AVIF buffer are not `ftyp` the walker
returns the hard-coded defaults (YCbCr, no alpha, 8-bit, BT.709, 4:2:0,
no HDR); a `colr` box is recognized only when its first 4 payload bytes
are `nclx` (otherwise it changes nothing), and then color primaries
(big-endian uint16 at payload bytes 4–6) 1 ↦ BT.709, 9 ↦ BT.2020,
12 ↦ Display P3 (anything else leaves the color space), and transfer
characteristic (bytes 6–8) 16 ↦ PQ, 18 ↦ HLG (anything else leaves the
HDR kind). -/
theorem C6_heif_defaults_and_colr (d p : List Nat) (m : HeifMetadata) :
    (sliceAt d 4 4 ≠ ascii "ftyp" → parseHEIFMetadata d = defaultHeifMeta)
    ∧ (sliceAt p 0 4 ≠ ascii "nclx" → applyColr p m = m)
    ∧ (sliceAt p 0 4 = ascii "nclx" → 8 ≤ p.length →
        ((be16at p 4 = 1 → (applyColr p m).colorSpace = GoColorSpace.BT709)
        ∧ (be16at p 4 = 9 → (applyColr p m).colorSpace = GoColorSpace.BT2020)
        ∧ (be16at p 4 = 12 → (applyColr p m).colorSpace = GoColorSpace.DisplayP3)
        ∧ (be16at p 4 ≠ 1 → be16at p 4 ≠ 9 → be16at p 4 ≠ 12 →
            (applyColr p m).colorSpace = m.colorSpace)
        ∧ (be16at p 6 = 16 → (applyColr p m).hdrType = GoHDRType.PQ)
        ∧ (be16at p 6 = 18 → (applyColr p m).hdrType = GoHDRType.HLG)
        ∧ (be16at p 6 ≠ 16 → be16at p 6 ≠ 18 →
            (applyColr p m).hdrType = m.hdrType))) := by
  refine ⟨?_, ?_, ?_⟩
  · intro hftyp
    unfold parseHEIFMetadata
    by_cases hlen : (d.take 16384).length < 12
    · rw [if_pos hlen]
    · rw [if_neg hlen, if_pos (by
        rw [sliceAt_take d 16384 4 4 (by omega)]
        exact hftyp)]
  · intro hnclx
    unfold applyColr
    rw [if_neg (by simp [hnclx])]
  · intro hnclx hlen8
    unfold applyColr
    rw [if_pos ⟨hnclx, hlen8⟩]
    simp only
    refine ⟨?_, ?_, ?_, ?_, ?_, ?_, ?_⟩ <;> intros <;> split_ifs <;> simp_all

/-- Witness for C6: a three-byte buffer (no `ftyp`) yields the defaults,
and an `nclx` colr payload with primaries 9 and transfer characteristic
16 yields BT.2020 + PQ. -/
theorem C6_witness :
    parseHEIFMetadata [1, 2, 3] = defaultHeifMeta
    ∧ (applyColr [110, 99, 108, 120, 0, 9, 0, 16] defaultHeifMeta).colorSpace
        = GoColorSpace.BT2020
    ∧ (applyColr [110, 99, 108, 120, 0, 9, 0, 16] defaultHeifMeta).hdrType
        = GoHDRType.PQ := by
  have h := C6_heif_defaults_and_colr [1, 2, 3] [110, 99, 108, 120, 0, 9, 0, 16] defaultHeifMeta
  exact ⟨h.1 (by decide),
    (h.2.2 (by decide) (by decide)).2.1 (by decide),
    (h.2.2 (by decide) (by decide)).2.2.2.2.1 (by decide)⟩

/-! ## Claim C8: where a bare pixi box is honored -/

theorem parseHEIFLoop_end (d : List Nat) (offset : Nat) (m : HeifMetadata)
    (h : ¬ (offset + 8 < d.length)) : parseHEIFLoop d offset m = m := by
  rw [parseHEIFLoop.eq_def, dif_neg h]

/-- One iteration of the top-level box loop when the declared size is
sane and fits in the remaining buffer (so no clamping happens). -/
theorem parseHEIFLoop_step (d : List Nat) (offset : Nat) (m : HeifMetadata)
    (h8 : offset + 8 < d.length)
    (hsz : ¬ (be32at d offset = 0 ∨ be32at d offset < 8))
    (hfit : offset + be32at d offset ≤ d.length) :
    parseHEIFLoop d offset m
      = parseHEIFLoop d (offset + be32at d offset)
          (if sliceAt d (offset + 4) 4 = ascii "meta" then
            parseMetaBox (sliceAt d (offset + 8) (be32at d offset - 8)) m
          else if sliceAt d (offset + 4) 4 = ascii "pixi" then
            if 3 ≤ (sliceAt d (offset + 8) (be32at d offset - 8)).length then
              { m with bitDepth := byteAt (sliceAt d (offset + 8) (be32at d offset - 8)) 2 }
            else m
          else if sliceAt d (offset + 4) 4 = ascii "colr" then
            applyColr (sliceAt d (offset + 8) (be32at d offset - 8)) m
          else if sliceAt d (offset + 4) 4 = ascii "auxC" then
            applyAuxC (sliceAt d (offset + 8) (be32at d offset - 8)) m
          else m) := by
  rw [parseHEIFLoop.eq_def, dif_pos h8, dif_neg hsz]
  rw [if_neg (show ¬ be32at d offset > d.length - offset by omega)]

theorem parseMetaLoop_no_iprp (d : List Nat) (m : HeifMetadata)
    (hnone : ∀ i, i + 8 < d.length → sliceAt d (i + 4) 4 ≠ ascii "iprp") :
    ∀ off2, parseMetaLoop d off2 m = m := by
  suffices H : ∀ k off2, d.length - off2 ≤ k → parseMetaLoop d off2 m = m by
    intro off2
    exact H d.length off2 (by omega)
  intro k
  induction k with
  | zero =>
    intro off2 hle
    rw [parseMetaLoop.eq_def, dif_neg (by omega)]
  | succ k ih =>
    intro off2 hle
    rw [parseMetaLoop.eq_def]
    by_cases h8 : off2 + 8 < d.length
    · rw [dif_pos h8]
      by_cases hbrk : be32at d off2 < 8 ∨ off2 + be32at d off2 > d.length
      · rw [dif_pos hbrk]
      · rw [dif_neg hbrk]
        simp only
        rw [if_neg (hnone off2 h8)]
        push_neg at hbrk
        exact ih (off2 + be32at d off2) (by omega)
    · rw [dif_neg h8]

/-- C8 counterexample: a buffer holding an `ftyp` box followed by a
`meta` box that directly contains a `pixi` box with bit-depth byte 10
(the claim's "simplified legacy layout").  The walker leaves the default
bit depth 8: `parseMetaBox` descends only into `iprp`, so a `pixi`
directly under `meta` is ignored, refuting the claim that byte 2 of its
payload (here 10) becomes the bit depth. -/
theorem C8_counterexample :
    parseHEIFMetadata
      [0, 0, 0, 16, 102, 116, 121, 112, 104, 101, 105, 99, 0, 0, 0, 0,
       0, 0, 0, 23, 109, 101, 116, 97, 0, 0, 0, 0, 0, 0, 0, 11,
       112, 105, 120, 105, 0, 1, 10]
      = defaultHeifMeta := by
  unfold parseHEIFMetadata
  rw [List.take_of_length_le (by decide)]
  rw [if_neg (by decide), if_neg (by decide)]
  rw [parseHEIFLoop_step _ _ _ (by decide) (by decide) (by decide)]
  rw [show be32at
      [0, 0, 0, 16, 102, 116, 121, 112, 104, 101, 105, 99, 0, 0, 0, 0,
       0, 0, 0, 23, 109, 101, 116, 97, 0, 0, 0, 0, 0, 0, 0, 11,
       112, 105, 120, 105, 0, 1, 10] 0 = 16 from by decide]
  rw [if_neg (by decide), if_neg (by decide), if_neg (by decide), if_neg (by decide)]
  rw [parseHEIFLoop_step _ _ _ (by decide) (by decide) (by decide)]
  rw [show (0 : Nat) + 16 = 16 from rfl]
  rw [show be32at
      [0, 0, 0, 16, 102, 116, 121, 112, 104, 101, 105, 99, 0, 0, 0, 0,
       0, 0, 0, 23, 109, 101, 116, 97, 0, 0, 0, 0, 0, 0, 0, 11,
       112, 105, 120, 105, 0, 1, 10] 16 = 23 from by decide]
  rw [if_pos (by decide)]
  rw [show sliceAt
      [0, 0, 0, 16, 102, 116, 121, 112, 104, 101, 105, 99, 0, 0, 0, 0,
       0, 0, 0, 23, 109, 101, 116, 97, 0, 0, 0, 0, 0, 0, 0, 11,
       112, 105, 120, 105, 0, 1, 10] (16 + 8) (23 - 8)
      = [0, 0, 0, 0, 0, 0, 0, 11, 112, 105, 120, 105, 0, 1, 10] from by decide]
  unfold parseMetaBox
  rw [parseMetaLoop_no_iprp _ _ (by
    intro i hi
    have hi7 : i < 7 := by simp at hi; omega
    interval_cases i <;> decide) 4]
  exact parseHEIFLoop_end _ _ _ (by decide)

/-- C8 as amended: the "bare pixi" handling sits in the *top-level* box
loop, not under `meta`: a `pixi` box appearing as a sibling of
`ftyp`/`meta` (here as the last top-level box, with a sane declared size
and at least 3 payload bytes) sets the bit depth from payload byte
index 2 (stream offset `offset + 10`); and `parseMetaBox` ignores every
box that is not `iprp`, so a `pixi` directly under `meta` never
contributes. -/
theorem C8_pixi_placement (d : List Nat) (offset : Nat) (m : HeifMetadata) :
    (offset + 8 < d.length → ¬ (be32at d offset = 0 ∨ be32at d offset < 8) →
      sliceAt d (offset + 4) 4 = ascii "pixi" → offset + be32at d offset = d.length →
      3 ≤ be32at d offset - 8 →
      parseHEIFLoop d offset m = { m with bitDepth := byteAt d (offset + 10) })
    ∧ ((∀ i, i + 8 < d.length → sliceAt d (i + 4) 4 ≠ ascii "iprp") →
      ∀ off2, parseMetaLoop d off2 m = m) := by
  constructor
  · intro h8 hsz htype hfit h3
    rw [parseHEIFLoop_step d offset m h8 hsz (by omega)]
    rw [htype]
    rw [if_neg (by decide), if_pos rfl]
    have hlen : (sliceAt d (offset + 8) (be32at d offset - 8)).length
        = be32at d offset - 8 := sliceAt_length _ _ _ (by omega)
    rw [if_pos (by rw [hlen]; omega)]
    rw [byteAt_sliceAt d (offset + 8) (be32at d offset - 8) 2 (by omega)]
    rw [show offset + 8 + 2 = offset + 10 by omega]
    exact parseHEIFLoop_end _ _ _ (by omega)
  · exact parseMetaLoop_no_iprp d m

/-- Witness for C8 (amended): an `ftyp` box followed by a top-level
`pixi` box with payload `[0, 1, 12]` yields bit depth 12 (payload byte
index 2). -/
theorem C8_witness :
    parseHEIFLoop
      [0, 0, 0, 16, 102, 116, 121, 112, 104, 101, 105, 99, 0, 0, 0, 0,
       0, 0, 0, 11, 112, 105, 120, 105, 0, 1, 12]
      16 defaultHeifMeta
      = { defaultHeifMeta with bitDepth := 12 } := by
  have h := (C8_pixi_placement
    [0, 0, 0, 16, 102, 116, 121, 112, 104, 101, 105, 99, 0, 0, 0, 0,
     0, 0, 0, 11, 112, 105, 120, 105, 0, 1, 12]
    16 defaultHeifMeta).1 (by decide) (by decide) (by decide) (by decide) (by decide)
  rw [h]
  decide

/-! ## Claim C7: format-constrained bit depths -/

/-- C7 counterexample: a buffer that opens with a well-formed `ftyp` box
and then carries a top-level `pixi` box whose bit-depth byte is 99.
Nothing in the analyzer constrains HEIF/AVIF bit depth to {8,10,12}: the
record produced for this stream (the external sniffer's contract
`sniff → (format, w, h)` does not promise to reject it) reports bit
depth 99. -/
theorem C7_counterexample :
    (analyzeAVIF
      [0, 0, 0, 16, 102, 116, 121, 112, 104, 101, 105, 99, 0, 0, 0, 0,
       0, 0, 0, 11, 112, 105, 120, 105, 0, 1, 99]
      (mkBaseInfo "avif" 1 1)).bitDepth = 99
    ∧ ¬ ((99 : Nat) = 8 ∨ (99 : Nat) = 10 ∨ (99 : Nat) = 12) := by
  refine ⟨?_, by decide⟩
  show (parseHEIFMetadata _).bitDepth = 99
  unfold parseHEIFMetadata
  rw [List.take_of_length_le (by decide)]
  rw [if_neg (by decide), if_neg (by decide)]
  rw [parseHEIFLoop_step _ _ _ (by decide) (by decide) (by decide)]
  rw [show be32at
      [0, 0, 0, 16, 102, 116, 121, 112, 104, 101, 105, 99, 0, 0, 0, 0,
       0, 0, 0, 11, 112, 105, 120, 105, 0, 1, 99] 0 = 16 from by decide]
  rw [if_neg (by decide), if_neg (by decide), if_neg (by decide), if_neg (by decide)]
  rw [parseHEIFLoop_step _ _ _ (by decide) (by decide) (by decide)]
  rw [show be32at
      [0, 0, 0, 16, 102, 116, 121, 112, 104, 101, 105, 99, 0, 0, 0, 0,
       0, 0, 0, 11, 112, 105, 120, 105, 0, 1, 99] (0 + 16) = 11 from by decide]
  rw [if_neg (by decide), if_pos (by decide), if_pos (by decide)]
  rw [parseHEIFLoop_end _ _ _ (by decide)]
  decide

/-- C7 as amended: the analyzer itself enforces the claimed sets only
for JPEG (bit depth 8 or 12, from the 12-bit probe) and WebP (always
8); PNG and HEIF/AVIF bit depths are copied verbatim from the stream
(IHDR byte, pixi payload byte) and are unconstrained by this code. -/
theorem C7_format_bit_depth (d : List Nat) (w hgt : Int) (cm : StdColorModel) :
    (∀ r, analyzeImageDispatch "jpeg" w hgt cm d = some r →
      r.bitDepth = 8 ∨ r.bitDepth = 12)
    ∧ (∀ r, analyzeImageDispatch "webp" w hgt cm d = some r → r.bitDepth = 8) := by
  constructor
  · intro r heq
    unfold analyzeImageDispatch at heq
    rw [if_neg (by decide), if_pos rfl] at heq
    unfold analyzeJPEG at heq
    cases h12 : is12BitJPEG d with
    | none => rw [h12] at heq; exact absurd heq (by simp)
    | some b12 =>
      rw [h12] at heq
      cases hsub : detectJPEGSubsampling d with
      | none => rw [hsub] at heq; exact absurd heq (by simp)
      | some sub =>
        rw [hsub] at heq
        cases hicc : detectJPEGICCProfile d with
        | none => rw [hicc] at heq; exact absurd heq (by simp)
        | some icc =>
          rw [hicc] at heq
          simp only at heq
          split at heq <;>
            (injection heq with h
             subst h
             cases b12
             · left; rfl
             · right; rfl)
  · intro r heq
    unfold analyzeImageDispatch at heq
    rw [if_neg (by decide), if_neg (by decide), if_pos rfl] at heq
    injection heq with h
    subst h
    rfl

/-- Witness for C7 (amended): the record the dispatcher produces for an
empty "jpeg" stream carries bit depth 8 (in particular 8 or 12). -/
theorem C7_witness :
    ((analyzeImageDispatch "jpeg" 1 1 StdColorModel.Other []).getD
        (mkBaseInfo "x" 0 0)).bitDepth = 8
    ∨ ((analyzeImageDispatch "jpeg" 1 1 StdColorModel.Other []).getD
        (mkBaseInfo "x" 0 0)).bitDepth = 12 :=
  (C7_format_bit_depth [] 1 1 StdColorModel.Other).1
    ((analyzeImageDispatch "jpeg" 1 1 StdColorModel.Other []).getD (mkBaseInfo "x" 0 0))
    rfl

/-! ## Claim C10: HEIF/AVIF never carries an ICC profile -/

/-- The only color spaces the nclx handler can produce (or leave). -/
def nclxColorSpace (cs : GoColorSpace) : Prop :=
  cs = GoColorSpace.BT709 ∨ cs = GoColorSpace.BT2020 ∨ cs = GoColorSpace.DisplayP3

theorem applyColr_colorSpace_ok (p : List Nat) (m : HeifMetadata)
    (h : nclxColorSpace m.colorSpace) : nclxColorSpace (applyColr p m).colorSpace := by
  unfold applyColr nclxColorSpace
  unfold nclxColorSpace at h
  simp only
  split_ifs <;> simp_all

theorem applyAuxC_colorSpace_eq (p : List Nat) (m : HeifMetadata) :
    (applyAuxC p m).colorSpace = m.colorSpace := by
  unfold applyAuxC
  split_ifs <;> rfl

theorem parseIpcoLoop_colorSpace_ok (d : List Nat) :
    ∀ off (m : HeifMetadata), nclxColorSpace m.colorSpace →
      nclxColorSpace (parseIpcoLoop d off m).colorSpace := by
  suffices H : ∀ k off (m : HeifMetadata), d.length - off ≤ k →
      nclxColorSpace m.colorSpace → nclxColorSpace (parseIpcoLoop d off m).colorSpace by
    intro off m hm
    exact H d.length off m (by omega) hm
  intro k
  induction k with
  | zero =>
    intro off m hle hm
    rw [parseIpcoLoop.eq_def, dif_neg (by omega)]
    exact hm
  | succ k ih =>
    intro off m hle hm
    rw [parseIpcoLoop.eq_def]
    by_cases h8 : off + 8 < d.length
    · rw [dif_pos h8]
      by_cases hbrk : be32at d off < 8 ∨ off + be32at d off > d.length
      · rw [dif_pos hbrk]
        exact hm
      · rw [dif_neg hbrk]
        simp only
        push_neg at hbrk
        have hmeas : d.length - (off + be32at d off) ≤ k := by omega
        refine ih (off + be32at d off) _ hmeas ?_
        split_ifs <;>
          first
          | exact hm
          | simp [hm]
          | exact applyColr_colorSpace_ok _ _ hm
          | (rw [applyAuxC_colorSpace_eq]; exact hm)
    · rw [dif_neg h8]
      exact hm

theorem parseIprpLoop_colorSpace_ok (d : List Nat) :
    ∀ off (m : HeifMetadata), nclxColorSpace m.colorSpace →
      nclxColorSpace (parseIprpLoop d off m).colorSpace := by
  suffices H : ∀ k off (m : HeifMetadata), d.length - off ≤ k →
      nclxColorSpace m.colorSpace → nclxColorSpace (parseIprpLoop d off m).colorSpace by
    intro off m hm
    exact H d.length off m (by omega) hm
  intro k
  induction k with
  | zero =>
    intro off m hle hm
    rw [parseIprpLoop.eq_def, dif_neg (by omega)]
    exact hm
  | succ k ih =>
    intro off m hle hm
    rw [parseIprpLoop.eq_def]
    by_cases h8 : off + 8 < d.length
    · rw [dif_pos h8]
      by_cases hbrk : be32at d off < 8 ∨ off + be32at d off > d.length
      · rw [dif_pos hbrk]
        exact hm
      · rw [dif_neg hbrk]
        simp only
        push_neg at hbrk
        have hmeas : d.length - (off + be32at d off) ≤ k := by omega
        refine ih (off + be32at d off) _ hmeas ?_
        split_ifs
        · exact parseIpcoLoop_colorSpace_ok _ 0 _ hm
        · exact hm
    · rw [dif_neg h8]
      exact hm

theorem parseMetaLoop_colorSpace_ok (d : List Nat) :
    ∀ off (m : HeifMetadata), nclxColorSpace m.colorSpace →
      nclxColorSpace (parseMetaLoop d off m).colorSpace := by
  suffices H : ∀ k off (m : HeifMetadata), d.length - off ≤ k →
      nclxColorSpace m.colorSpace → nclxColorSpace (parseMetaLoop d off m).colorSpace by
    intro off m hm
    exact H d.length off m (by omega) hm
  intro k
  induction k with
  | zero =>
    intro off m hle hm
    rw [parseMetaLoop.eq_def, dif_neg (by omega)]
    exact hm
  | succ k ih =>
    intro off m hle hm
    rw [parseMetaLoop.eq_def]
    by_cases h8 : off + 8 < d.length
    · rw [dif_pos h8]
      by_cases hbrk : be32at d off < 8 ∨ off + be32at d off > d.length
      · rw [dif_pos hbrk]
        exact hm
      · rw [dif_neg hbrk]
        simp only
        push_neg at hbrk
        have hmeas : d.length - (off + be32at d off) ≤ k := by omega
        refine ih (off + be32at d off) _ hmeas ?_
        split_ifs
        · exact parseIprpLoop_colorSpace_ok _ 0 _ hm
        · exact hm
    · rw [dif_neg h8]
      exact hm

theorem parseHEIFLoop_colorSpace_ok (d : List Nat) :
    ∀ off (m : HeifMetadata), nclxColorSpace m.colorSpace →
      nclxColorSpace (parseHEIFLoop d off m).colorSpace := by
  suffices H : ∀ k off (m : HeifMetadata), d.length - off ≤ k →
      nclxColorSpace m.colorSpace → nclxColorSpace (parseHEIFLoop d off m).colorSpace by
    intro off m hm
    exact H d.length off m (by omega) hm
  intro k
  induction k with
  | zero =>
    intro off m hle hm
    rw [parseHEIFLoop.eq_def, dif_neg (by omega)]
    exact hm
  | succ k ih =>
    intro off m hle hm
    rw [parseHEIFLoop.eq_def]
    by_cases h8 : off + 8 < d.length
    · rw [dif_pos h8]
      by_cases hsz : be32at d off = 0 ∨ be32at d off < 8
      · rw [dif_pos hsz]
        exact hm
      · rw [dif_neg hsz]
        simp only
        push_neg at hsz
        have hmeas : d.length -
            (off + if be32at d off > d.length - off then d.length - off else be32at d off)
            ≤ k := by
          split_ifs <;> omega
        refine ih _ _ hmeas ?_
        split_ifs <;>
          first
          | exact hm
          | simp [hm]
          | exact applyColr_colorSpace_ok _ _ hm
          | (rw [applyAuxC_colorSpace_eq]; exact hm)
          | (unfold parseMetaBox
             exact parseMetaLoop_colorSpace_ok _ 4 _ hm)
    · rw [dif_neg h8]
      exact hm

theorem parseHEIFMetadata_colorSpace_ok (d : List Nat) :
    nclxColorSpace (parseHEIFMetadata d).colorSpace := by
  unfold parseHEIFMetadata
  simp only
  split_ifs
  · exact Or.inl rfl
  · exact Or.inl rfl
  · exact parseHEIFLoop_colorSpace_ok (d.take 16384) 0 defaultHeifMeta (Or.inl rfl)

/-- C10: every record the HEIF or AVIF analysis path produces has
`has_icc_profile = false` and `icc_profile_size = 0` (the path never
touches the ICC fields, and never scans the stream for a profile), and
its color space is exactly what the box walker reports — BT.709 unless
an nclx `colr` box raised it to BT.2020 or Display P3. -/
theorem C10_heif_avif_no_icc (d : List Nat) (w hgt : Int) (cm : StdColorModel)
    (r : ImageInfo)
    (heq : analyzeImageDispatch "heif" w hgt cm d = some r
      ∨ analyzeImageDispatch "avif" w hgt cm d = some r) :
    r.hasICCProfile = false ∧ r.iccProfileSize = 0
    ∧ r.colorSpace = (parseHEIFMetadata d).colorSpace
    ∧ nclxColorSpace r.colorSpace := by
  rcases heq with h | h
  · unfold analyzeImageDispatch at h
    rw [if_neg (by decide), if_neg (by decide), if_neg (by decide), if_pos rfl] at h
    injection h with h
    subst h
    exact ⟨rfl, rfl, rfl, parseHEIFMetadata_colorSpace_ok d⟩
  · unfold analyzeImageDispatch at h
    rw [if_neg (by decide), if_neg (by decide), if_neg (by decide), if_neg (by decide),
      if_pos rfl] at h
    injection h with h
    subst h
    exact ⟨rfl, rfl, rfl, parseHEIFMetadata_colorSpace_ok d⟩

/-- Witness for C10: the record produced for an empty "heif" stream has
no ICC profile and carries the BT.709 default color space. -/
theorem C10_witness :
    ((analyzeImageDispatch "heif" 1 1 StdColorModel.Other []).getD
        (mkBaseInfo "x" 0 0)).hasICCProfile = false
    ∧ ((analyzeImageDispatch "heif" 1 1 StdColorModel.Other []).getD
        (mkBaseInfo "x" 0 0)).iccProfileSize = 0
    ∧ ((analyzeImageDispatch "heif" 1 1 StdColorModel.Other []).getD
        (mkBaseInfo "x" 0 0)).colorSpace = (parseHEIFMetadata []).colorSpace
    ∧ nclxColorSpace ((analyzeImageDispatch "heif" 1 1 StdColorModel.Other []).getD
        (mkBaseInfo "x" 0 0)).colorSpace :=
  C10_heif_avif_no_icc [] 1 1 StdColorModel.Other
    ((analyzeImageDispatch "heif" 1 1 StdColorModel.Other []).getD (mkBaseInfo "x" 0 0))
    (Or.inl rfl)
